import Mathlib

/-!
Verification of the Sportbase event-extraction and query layer
(`instat_parser.py`, and the player-code decomposition of
`streamlit_app.py` / `player_report.py`) against its natural-language
specification.

Python strings are embedded as `List Char`; Python `None`-able values as
`Option`; exceptions as explicit error constructors.  The only float
operations the code performs are decimal parsing, `min`/`max` and the
`float('inf')` initial bound of the summary's time range, so float values
are embedded as exact unnormalized fractions (`PFloat`, ordered by
cross-multiplication) and the infinity as the `none` of an
`Option PFloat`.
-/

/-- A Python string, embedded as a list of characters. -/
abbrev Str := List Char

/-- Splits `s` at the first occurrence of `sep`: returns the segment before
the first occurrence and, when `sep` occurs, `some` of the segment after it.
This is Python's `s.split(sep, 1)`: component `.1` is `split(sep)[0]` and
component `.2` is `split(sep, 1)[1]` (`none` when indexing it would raise
`IndexError`). -/
def splitFirst : Str → Str → Str × Option Str
  | [], sep => if sep.isPrefixOf ([] : Str) then ([], some []) else ([], none)
  | c :: rest, sep =>
    if sep.isPrefixOf (c :: rest) then ([], some ((c :: rest).drop sep.length))
    else
      let r := splitFirst rest sep
      (c :: r.1, r.2)

/-- Python's substring test `pat in s` (true for the empty pattern). -/
def strContains (s pat : Str) : Bool :=
  ((splitFirst s pat).2).isSome

/-- Python's `str.strip()` with no argument: remove leading and trailing
whitespace. -/
def pyStrip (s : Str) : Str :=
  ((s.dropWhile Char.isWhitespace).reverse.dropWhile Char.isWhitespace).reverse

/-- Value of a run of ASCII decimal digits. -/
def digitsVal (s : Str) : Nat :=
  s.foldl (fun n c => n * 10 + (c.toNat - '0'.toNat)) 0

/-- Parses a nonempty all-digit string; `none` otherwise. -/
def digitsToNat (s : Str) : Option Nat :=
  if !s.isEmpty && s.all Char.isDigit then some (digitsVal s) else none

/-- Python's `int(text)` on a string: strip whitespace, optional sign,
decimal digits.  `none` embeds the `ValueError` raised on non-numeric text.
(Digit-group underscores and non-ASCII digits, which Python also accepts,
are outside the model; no claim exercises them.) -/
def pyParseInt (s : Str) : Option Int :=
  let t := pyStrip s
  match t with
  | '+' :: r => (digitsToNat r).map Int.ofNat
  | '-' :: r => (digitsToNat r).map (fun n => -(n : Int))
  | _ => (digitsToNat t).map Int.ofNat

/-- A Python float value, embedded as an exact unnormalized fraction with
positive denominator.  Only comparison (`min`/`max`) and decimal parsing
occur in the modelled code, so exact rationals are a faithful embedding of
the values the code actually handles (IEEE rounding of extreme decimal
literals is outside the model). -/
structure PFloat where
  num : Int
  den : Nat
deriving DecidableEq

/-- The float value `0` (the summary's initial `end` bound). -/
def PFloat.zero : PFloat := ⟨0, 1⟩

/-- Python's `<=` on float values (cross-multiplication on fractions). -/
def PFloat.le (a b : PFloat) : Bool :=
  a.num * (b.den : Int) ≤ b.num * (a.den : Int)

/-- Python's two-argument `min`: the first argument when they compare
equal. -/
def pmin (a b : PFloat) : PFloat := if a.le b then a else b

/-- Python's two-argument `max`: the first argument when they compare
equal. -/
def pmax (a b : PFloat) : PFloat := if b.le a then a else b

/-- Scales a parsed mantissa by `10 ^ z` (the exponent part of a float
literal). -/
def PFloat.scale (m : PFloat) (z : Int) : PFloat :=
  if 0 ≤ z then ⟨m.num * (10 : Int) ^ z.toNat, m.den⟩
  else ⟨m.num, m.den * 10 ^ (-z).toNat⟩

/-- Exponent part of a float literal (the text after `e`/`E`). -/
def parseExp (s : Str) : Option Int :=
  match s with
  | '+' :: r => (digitsToNat r).map Int.ofNat
  | '-' :: r => (digitsToNat r).map (fun n => -(n : Int))
  | r => (digitsToNat r).map Int.ofNat

/-- Unsigned decimal float body: digits, optional `.` and fraction digits
(at least one digit overall), optional `e`/`E` exponent. -/
def parseUnsignedFloat (s : Str) : Option PFloat :=
  let ip := s.takeWhile Char.isDigit
  let rest := s.dropWhile Char.isDigit
  match rest with
  | [] => if ip.isEmpty then none else some ⟨digitsVal ip, 1⟩
  | '.' :: r2 =>
    let fp := r2.takeWhile Char.isDigit
    let rest2 := r2.dropWhile Char.isDigit
    if ip.isEmpty && fp.isEmpty then none
    else
      let m : PFloat := ⟨digitsVal ip * 10 ^ fp.length + digitsVal fp, 10 ^ fp.length⟩
      match rest2 with
      | [] => some m
      | 'e' :: es => (parseExp es).map m.scale
      | 'E' :: es => (parseExp es).map m.scale
      | _ => none
  | 'e' :: es =>
    if ip.isEmpty then none
    else (parseExp es).map (PFloat.scale ⟨digitsVal ip, 1⟩)
  | 'E' :: es =>
    if ip.isEmpty then none
    else (parseExp es).map (PFloat.scale ⟨digitsVal ip, 1⟩)
  | _ => none

/-- Python's `float(text)` on a string: strip whitespace, optional sign,
decimal mantissa and optional exponent.  `none` embeds the `ValueError`
raised on non-numeric text.  (The special forms `inf`/`nan`, digit-group
underscores and non-ASCII digits are outside the model; no claim exercises
them.) -/
def pyParseFloat (s : Str) : Option PFloat :=
  let t := pyStrip s
  match t with
  | '+' :: r => parseUnsignedFloat r
  | '-' :: r => (parseUnsignedFloat r).map (fun m => ⟨-m.num, m.den⟩)
  | _ => parseUnsignedFloat t

/-- One extracted event: the dict built by `_parse_instance`.  The four
scalar keys are present exactly when the corresponding child element was
present in the source instance (`Option`); the `code` value itself may be
Python `None` when the `code` element is empty (`Option (Option Str)`).
`labels` is the label dict: keys are the `group` child texts (which may be
`None`), values the `text` child texts (which may be `None`). -/
structure Event where
  id : Option Int
  start_time : Option PFloat
  end_time : Option PFloat
  code : Option (Option Str)
  labels : List (Option Str × Option Str)
deriving DecidableEq

/-- Lookup in a Python dict embedded as an association list (first match;
insertion keeps keys unique).  `none` means the key is absent. -/
def dictGet (d : List (Option Str × Option Str)) (k : Option Str) :
    Option (Option Str) :=
  (d.find? (fun p => p.1 == k)).map (fun p => p.2)

/-- Python dict assignment `d[k] = v`: overwrite in place when the key
exists, otherwise append (insertion order preserved, as in CPython). -/
def dictInsert (d : List (Option Str × Option Str)) (k v : Option Str) :
    List (Option Str × Option Str) :=
  if d.any (fun p => p.1 == k) then
    d.map (fun p => if p.1 == k then (k, v) else p)
  else d ++ [(k, v)]

/-- Python `labels.get(k)` (default `None`): merges "key absent" and
"key present with value `None`", exactly as the call sites compare it. -/
def pyLabelsGet (d : List (Option Str × Option Str)) (k : Str) : Option Str :=
  (dictGet d (some k)).getD none

/-- Python `event.get('labels', {}).get('Team', '')` from
`get_events_by_team`: the default `''` applies only when the key is
absent; a stored `None` value comes through as `none`. -/
def pyGetTeam (e : Event) : Option Str :=
  (dictGet e.labels (some "Team".toList)).getD (some [])

/-- A `label` child element of an instance: each sub-field is `some` when
the child element (`group` / `text`) is present, and carries that
element's text, itself `none` when the element is empty. -/
structure LabelElem where
  group : Option (Option Str)
  text : Option (Option Str)
deriving DecidableEq

/-- An `instance` element of the `ALL_INSTANCES` container: the texts of
the optional `ID`/`start`/`end`/`code` children and the list of `label`
children, in document order. -/
structure InstanceElem where
  idText : Option (Option Str)
  startText : Option (Option Str)
  endText : Option (Option Str)
  codeText : Option (Option Str)
  labelChildren : List LabelElem
deriving DecidableEq

/-- A parsed XML document, as far as `extract_events` inspects it: the
`ALL_INSTANCES` container (if any) with its `instance` elements in
document order. -/
structure XmlDoc where
  all_instances : Option (List InstanceElem)
deriving DecidableEq

/-- Parsing of a numeric scalar field in `_parse_instance`: absent element
→ field omitted; present element whose text is `None` or fails numeric
parsing → exception (`TypeError`/`ValueError` in Python, a single error
constructor here). -/
def parseNumField {α : Type} (fieldElem : Option (Option Str))
    (p : Str → Option α) : Except Unit (Option α) :=
  match fieldElem with
  | none => .ok none
  | some none => .error ()
  | some (some s) =>
    match p s with
    | none => .error ()
    | some v => .ok (some v)

/-- The label-dict construction loop of `_parse_instance`: a `label` child
contributes `labels[group.text] = text.text` exactly when both the `group`
and the `text` child elements are present (their texts may still be
`None`); later assignments to the same group overwrite earlier ones. -/
def buildLabels (ls : List LabelElem) : List (Option Str × Option Str) :=
  ls.foldl
    (fun d lab =>
      match lab.group, lab.text with
      | some g, some t => dictInsert d g t
      | _, _ => d)
    []

/-- `InstatEventParser._parse_instance`: builds one event dict from one
`instance` element, with `int(...)`/`float(...)` failures propagating as
an exception; the `ID`, `start`, `end` fields are parsed in source order,
so the first failing field aborts the instance. -/
def _parse_instance (inst : InstanceElem) : Except Unit Event :=
  match parseNumField inst.idText pyParseInt with
  | .error u => .error u
  | .ok i =>
    match parseNumField inst.startText pyParseFloat with
    | .error u => .error u
    | .ok s =>
      match parseNumField inst.endText pyParseFloat with
      | .error u => .error u
      | .ok e => .ok ⟨i, s, e, inst.codeText, buildLabels inst.labelChildren⟩

/-- Outcome of `InstatEventParser.extract_events`: `noReturn` embeds the
bare `return` (Python `None`) taken when no `ALL_INSTANCES` container is
found; `parseError` embeds a numeric-parse exception propagating out of
`_parse_instance`; `events` is the normal return. -/
inductive ExtractResult
  | noReturn
  | parseError
  | events (es : List Event)
deriving DecidableEq

/-- The extraction loop over the container's `instance` elements, in
document order: each parsed event is appended; an exception raised while
parsing an instance propagates out of the whole loop. -/
def parseAll : List InstanceElem → Except Unit (List Event)
  | [] => .ok []
  | i :: rest =>
    match _parse_instance i with
    | .error u => .error u
    | .ok e =>
      match parseAll rest with
      | .error u => .error u
      | .ok es => .ok (e :: es)

/-- `InstatEventParser.extract_events` on a loaded document.  Every parsed
instance is appended: the source guard `if event:` is always true because
`_parse_instance` always returns a dict containing at least the `labels`
key, and a nonempty dict is truthy. -/
def extract_events (doc : XmlDoc) : ExtractResult :=
  match doc.all_instances with
  | none => .noReturn
  | some insts =>
    match parseAll insts with
    | .error _ => .parseError
    | .ok es => .events es

/-- `InstatEventParser.get_events_by_action`: equality filter on the
`Action` label (`labels.get('Action') == action_type`; an absent label or
a `None` value never equals the string argument). -/
def get_events_by_action (events : List Event) (action_type : Str) : List Event :=
  events.filter (fun e => pyLabelsGet e.labels "Action".toList == some action_type)

/-- `InstatEventParser.get_events_by_half`: equality filter on the `Half`
label. -/
def get_events_by_half (events : List Event) (half : Str) : List Event :=
  events.filter (fun e => pyLabelsGet e.labels "Half".toList == some half)

/-- `InstatEventParser.get_events_by_team`: substring filter
`team_name in event.get('labels', {}).get('Team', '')`.  When an event's
`Team` label is present with value `None`, the membership test
`team_name in None` raises `TypeError` (the `.error` case); the
comprehension evaluates events left to right, so the first such event
aborts the call. -/
def get_events_by_team : List Event → Str → Except Unit (List Event)
  | [], _ => .ok []
  | e :: rest, q =>
    match pyGetTeam e with
    | none => .error ()
    | some s =>
      match get_events_by_team rest q with
      | .error u => .error u
      | .ok res => .ok (if strContains s q then e :: res else res)

/-- The summary-statistics dict for a nonempty event list.  `teams` is the
Python set embedded as a first-insertion-ordered duplicate-free list (no
claim depends on set iteration order); `actions`/`halves` are
insertion-ordered count dicts; `time_start` is the running `min` with
`none` embedding the initial `float('inf')`; `time_end` the running `max`
from `0`. -/
structure Stats where
  total_events : Nat
  teams : List Str
  actions : List (Str × Nat)
  halves : List (Str × Nat)
  time_start : Option PFloat
  time_end : PFloat
deriving DecidableEq

/-- Python `set.add` embedded on a duplicate-free list. -/
def addTeam (ts : List Str) (t : Str) : List Str :=
  if ts.contains t then ts else ts ++ [t]

/-- The count-dict update `d[k] = d.get(k, 0) + 1`. -/
def bump (d : List (Str × Nat)) (k : Str) : List (Str × Nat) :=
  if d.any (fun p => p.1 == k) then
    d.map (fun p => if p.1 == k then (p.1, p.2 + 1) else p)
  else d ++ [(k, 1)]

/-- The team / action / half bookkeeping of one `get_summary_stats` loop
iteration: the team is collected when truthy and not the sentinel
`'None'`; the action and half counts are bumped when the label value is
truthy (a Python `None` or empty-string label value is falsy and
skipped). -/
def countsUpdate (st : Stats) (e : Event) : Stats :=
  let st1 :=
    match pyLabelsGet e.labels "Team".toList with
    | some t =>
      if !t.isEmpty && t != "None".toList then
        { st with teams := addTeam st.teams t }
      else st
    | none => st
  let st2 :=
    match pyLabelsGet e.labels "Action".toList with
    | some a => if !a.isEmpty then { st1 with actions := bump st1.actions a } else st1
    | none => st1
  match pyLabelsGet e.labels "Half".toList with
  | some hf => if !hf.isEmpty then { st2 with halves := bump st2.halves hf } else st2
  | none => st2

/-- Python's `min(cur, s)` where `cur` is the running `time_range` start
and `none` embeds its `float('inf')` initial value. -/
def optMin (o : Option PFloat) (q : PFloat) : Option PFloat :=
  match o with
  | none => some q
  | some c => some (pmin c q)

/-- One iteration of the `get_summary_stats` loop.  The time-range branch
runs only when the event carries `start_time`; it then reads
`event['end_time']` unconditionally, so an event with a `start_time` but
no `end_time` raises `KeyError` (the `.error` case). -/
def summaryStep (st : Stats) (e : Event) : Except Unit Stats :=
  let st3 := countsUpdate st e
  match e.start_time with
  | none => .ok st3
  | some s =>
    match e.end_time with
    | none => .error ()
    | some en =>
      .ok { st3 with time_start := optMin st3.time_start s,
                     time_end := pmax st3.time_end en }

/-- Outcome of `InstatEventParser.get_summary_stats`: `emptyDict` embeds
the early `return {}` on an empty event list (the empty dict, a value
distinct from any full `Stats` record); `keyError` the `KeyError` raised
on a missing `end_time`. -/
inductive SummaryResult
  | emptyDict
  | keyError
  | stats (s : Stats)
deriving DecidableEq

/-- The single pass of `get_summary_stats` over the events, threading the
stats dict; a `KeyError` raised by an iteration propagates out of the
loop. -/
def summaryLoop : Stats → List Event → Except Unit Stats
  | st, [] => .ok st
  | st, e :: rest =>
    match summaryStep st e with
    | .error u => .error u
    | .ok st2 => summaryLoop st2 rest

/-- `InstatEventParser.get_summary_stats`.  `total_events` is set to the
length up front, as in the source dict literal; the final
`list(stats['teams'])` conversion is the identity on the embedded team
list. -/
def get_summary_stats (events : List Event) : SummaryResult :=
  if events.isEmpty then .emptyDict
  else
    match summaryLoop ⟨events.length, [], [], [], none, PFloat.zero⟩ events with
    | .error _ => .keyError
    | .ok st => .stats st

/-- Outcome of the player-code decomposition inlined in
`get_player_list_from_df` (`streamlit_app.py`) and `get_player_list`
(`player_report.py`): `noName` when one of the three structural markers is
missing (the code is skipped); `indexError` when
`player_part.split('.', 1)[1]` raises `IndexError`; `name` the extracted
player name. -/
inductive DecomposeResult
  | noName
  | indexError
  | name (s : Str)
deriving DecidableEq

/-- The marker `" - "`. -/
def dashSep : Str := " - ".toList

/-- The marker `"."`. -/
def dotSep : Str := ".".toList

/-- The marker `"("`. -/
def parenSep : Str := "(".toList

/-- The player-code decomposition:
`if ' - ' in code and '.' in code and '(' in code:` then
`code.split(' - ')[0].split('.', 1)[1].split('(')[0].strip()`. -/
def decompose_player_code (code : Str) : DecomposeResult :=
  if strContains code dashSep && strContains code dotSep && strContains code parenSep then
    let player_part := (splitFirst code dashSep).1
    match (splitFirst player_part dotSep).2 with
    | none => .indexError
    | some afterDot => .name (pyStrip (splitFirst afterDot parenSep).1)
  else .noName

/-- Spec-side formula, written from the spec's words: the minimum of
`start_time` over the events that carry one; `none` embeds the
`float('inf')` the bound stays at when no event carries a `start_time`. -/
def specMinStart (E : List Event) : Option PFloat :=
  match E.filterMap Event.start_time with
  | [] => none
  | q :: qs => some (qs.foldl pmin q)

/-- The `end_time` values the summary's running `max` actually ranges
over: those of the events that carry a `start_time`. -/
def relevantEnds (E : List Event) : List PFloat :=
  (E.filter (fun e => e.start_time.isSome)).filterMap Event.end_time

/-- The value the summary's `time_range.end` actually computes: the `max`
of `end_time` over the events carrying a `start_time`, from the initial
bound `0`. -/
def specMaxEnd (E : List Event) : PFloat :=
  (relevantEnds E).foldl pmax PFloat.zero

/-- A numeric scalar field of the instance is present with non-numeric
text. -/
def badNumeric (inst : InstanceElem) : Prop :=
  (∃ s, inst.idText = some (some s) ∧ pyParseInt s = none) ∨
  (∃ s, inst.startText = some (some s) ∧ pyParseFloat s = none) ∨
  (∃ s, inst.endText = some (some s) ∧ pyParseFloat s = none)

instance exceptDecEq {ε α : Type} [DecidableEq ε] [DecidableEq α] :
    DecidableEq (Except ε α)
  | .error a, .error b =>
    if h : a = b then .isTrue (by rw [h])
    else .isFalse (by intro hh; cases hh; exact h rfl)
  | .error _, .ok _ => .isFalse (by intro h; cases h)
  | .ok _, .error _ => .isFalse (by intro h; cases h)
  | .ok a, .ok b =>
    if h : a = b then .isTrue (by rw [h])
    else .isFalse (by intro hh; cases hh; exact h rfl)

/-- Decidable observer for "`_parse_instance` returned normally". -/
def isOkE : Except Unit Event → Bool
  | .ok _ => true
  | .error _ => false

/-- An event carrying a `start_time` but no `end_time` (its instance had a
`start` child but no `end` child). -/
def eStartNoEnd : Event := ⟨none, some ⟨10, 10⟩, none, none, []⟩

/-- A source instance with `start` text `"1.0"` and no `end` child; it
extracts to `eStartNoEnd`. -/
def docStartNoEnd : XmlDoc := ⟨some [⟨none, some (some "1.0".toList), none, none, []⟩]⟩

/-- An event whose `Team` label is present with the Python value `None`
(its `label` had an empty `text` element). -/
def eNoneTeam : Event := ⟨none, none, none, none, [(some "Team".toList, none)]⟩

/-- A second such event (distinct `id`), for a separate counterexample. -/
def eNoneTeam7 : Event := ⟨some 7, none, none, none, [(some "Team".toList, none)]⟩

/-- A source instance whose `Team` label has an empty `text` element; it
extracts to `eNoneTeam`. -/
def docNoneTeam : XmlDoc :=
  ⟨some [⟨none, none, none, none, [⟨some (some "Team".toList), some none⟩]⟩]⟩

/-- An event labelled `Team = "Bnei Yehuda Tel-Aviv U19"`. -/
def eBnei : Event :=
  ⟨none, none, none, none, [(some "Team".toList, some "Bnei Yehuda Tel-Aviv U19".toList)]⟩

/-- An event with an `end_time` but no `start_time`. -/
def eEndNoStart : Event := ⟨none, none, some ⟨5, 1⟩, none, []⟩

/-- An event with `start_time = 2` and `end_time = 10`. -/
def eW1 : Event := ⟨none, some ⟨2, 1⟩, some ⟨10, 1⟩, none, []⟩

/-- An event with no `start_time` and `end_time = 99`. -/
def eW2 : Event := ⟨none, none, some ⟨99, 1⟩, none, []⟩

/-- An event with no labels at all. -/
def eNoTeamLbl : Event := ⟨none, none, none, none, []⟩

/-- A source instance whose `ID` text is the non-numeric `"abc"`. -/
def instAbc : InstanceElem := ⟨some (some "abc".toList), none, none, none, []⟩

/-- A document containing only `instAbc`. -/
def docAbc : XmlDoc := ⟨some [instAbc]⟩

/-- A fully populated source instance. -/
def instW1 : InstanceElem :=
  ⟨some (some "4".toList), some (some "1.5".toList), some (some "2.5".toList),
    some (some "x".toList), [⟨some (some "Half".toList), some (some "1".toList)⟩]⟩

/-- A source instance with no children at all. -/
def instW2 : InstanceElem := ⟨none, none, none, none, []⟩

/-- A document with two instances, the second without any label children. -/
def docW : XmlDoc := ⟨some [instW1, instW2]⟩

lemma countsUpdate_time_start (st : Stats) (e : Event) :
    (countsUpdate st e).time_start = st.time_start := by
  unfold countsUpdate
  repeat' split
  all_goals rfl

lemma countsUpdate_time_end (st : Stats) (e : Event) :
    (countsUpdate st e).time_end = st.time_end := by
  unfold countsUpdate
  repeat' split
  all_goals rfl

lemma strContains_nil (s : Str) : strContains s ([] : Str) = true := by
  cases s <;> simp [strContains, splitFirst, List.isPrefixOf]

lemma summaryLoop_ok (E : List Event) : ∀ s0 : Stats,
    (∀ e ∈ E, e.start_time.isSome = true → e.end_time.isSome = true) →
    ∃ st, summaryLoop s0 E = .ok st ∧
      st.time_start = (E.filterMap Event.start_time).foldl optMin s0.time_start ∧
      st.time_end = (relevantEnds E).foldl pmax s0.time_end := by
  induction E with
  | nil => exact fun s0 _ => ⟨s0, rfl, rfl, rfl⟩
  | cons e rest ih =>
    intro s0 h
    have hrest := fun x hx => h x (List.mem_cons_of_mem _ hx)
    cases hs : e.start_time with
    | none =>
      have step : summaryStep s0 e = .ok (countsUpdate s0 e) := by
        unfold summaryStep; rw [hs]
      obtain ⟨st, h1, h2, h3⟩ := ih (countsUpdate s0 e) hrest
      refine ⟨st, ?_, ?_, ?_⟩
      · simp [summaryLoop, step, h1]
      · rw [h2, countsUpdate_time_start]
        simp [List.filterMap_cons, hs]
      · rw [h3, countsUpdate_time_end]
        simp [relevantEnds, List.filter_cons, hs]
    | some s =>
      have he : e.end_time.isSome = true :=
        h e (List.mem_cons_self _ _) (by simp [hs])
      cases hen : e.end_time with
      | none => rw [hen] at he; simp at he
      | some en =>
        have step : summaryStep s0 e =
            .ok { countsUpdate s0 e with
                  time_start := optMin (countsUpdate s0 e).time_start s,
                  time_end := pmax (countsUpdate s0 e).time_end en } := by
          unfold summaryStep; rw [hs, hen]
        obtain ⟨st, h1, h2, h3⟩ := ih
          { countsUpdate s0 e with
            time_start := optMin (countsUpdate s0 e).time_start s,
            time_end := pmax (countsUpdate s0 e).time_end en } hrest
        refine ⟨st, ?_, ?_, ?_⟩
        · simp [summaryLoop, step, h1]
        · rw [h2]
          simp [List.filterMap_cons, hs, countsUpdate_time_start]
        · rw [h3]
          simp [relevantEnds, List.filter_cons, hs, List.filterMap_cons, hen,
            countsUpdate_time_end]

lemma foldl_optMin_some (l : List PFloat) : ∀ c : PFloat,
    l.foldl optMin (some c) = some (l.foldl pmin c) := by
  induction l with
  | nil => intro c; rfl
  | cons q qs ih => intro c; simp [List.foldl_cons, optMin, ih]

lemma foldl_optMin_none (E : List Event) :
    (E.filterMap Event.start_time).foldl optMin none = specMinStart E := by
  unfold specMinStart
  cases E.filterMap Event.start_time with
  | nil => rfl
  | cons q qs => simp [List.foldl_cons, optMin, foldl_optMin_some]

lemma teamFilter_ok (E : List Event) (q : Str)
    (h : ∀ e ∈ E, (pyGetTeam e).isSome = true) :
    get_events_by_team E q =
      .ok (E.filter (fun e => strContains ((pyGetTeam e).getD []) q)) := by
  induction E with
  | nil => rfl
  | cons e rest ih =>
    have he := h e (List.mem_cons_self _ _)
    cases hm : pyGetTeam e with
    | none => rw [hm] at he; simp at he
    | some s =>
      have ihr := ih (fun x hx => h x (List.mem_cons_of_mem _ hx))
      simp [get_events_by_team, hm, ihr, List.filter_cons]

lemma parseAll_ok_corresponds : ∀ (insts : List InstanceElem) (es : List Event),
    parseAll insts = .ok es →
    es.length = insts.length ∧
    ∀ i (h1 : i < insts.length) (h2 : i < es.length),
      _parse_instance (insts.get ⟨i, h1⟩) = .ok (es.get ⟨i, h2⟩) := by
  intro insts
  induction insts with
  | nil =>
    intro es h
    simp [parseAll] at h
    subst h
    exact ⟨rfl, fun i h1 _ => absurd h1 (by simp)⟩
  | cons inst rest ih =>
    intro es h
    cases hp : _parse_instance inst with
    | error u => simp [parseAll, hp] at h
    | ok e =>
      cases hr : parseAll rest with
      | error u => simp [parseAll, hp, hr] at h
      | ok es2 =>
        simp [parseAll, hp, hr] at h
        subst h
        obtain ⟨hl, hi⟩ := ih es2 hr
        refine ⟨by simp [hl], ?_⟩
        intro i h1 h2
        cases i with
        | zero => simpa using hp
        | succ j =>
          have := hi j (by simpa using h1) (by simpa using h2)
          simpa using this

lemma parseAll_error_of_mem : ∀ (insts : List InstanceElem) (inst : InstanceElem),
    inst ∈ insts → (∃ u, _parse_instance inst = .error u) →
    ∃ u2, parseAll insts = .error u2 := by
  intro insts
  induction insts with
  | nil => intro inst hm; cases hm
  | cons i rest ih =>
    intro inst hm he
    rcases List.mem_cons.mp hm with heq | hmem
    · subst heq
      obtain ⟨u, hu⟩ := he
      exact ⟨u, by simp [parseAll, hu]⟩
    · cases hp : _parse_instance i with
      | error u2 => exact ⟨u2, by simp [parseAll, hp]⟩
      | ok e =>
        obtain ⟨u2, h2⟩ := ih inst hmem he
        exact ⟨u2, by simp [parseAll, hp, h2]⟩

lemma parse_instance_error_of_bad (inst : InstanceElem) (h : badNumeric inst) :
    ∃ u, _parse_instance inst = .error u := by
  rcases h with ⟨s, h1, h2⟩ | ⟨s, h1, h2⟩ | ⟨s, h1, h2⟩
  · exact ⟨(), by simp [_parse_instance, parseNumField, h1, h2]⟩
  · cases hid : parseNumField inst.idText pyParseInt with
    | error u => exact ⟨u, by simp [_parse_instance, hid]⟩
    | ok i =>
      refine ⟨(), ?_⟩
      simp only [_parse_instance]
      rw [hid]
      simp [parseNumField, h1, h2]
  · cases hid : parseNumField inst.idText pyParseInt with
    | error u => exact ⟨u, by simp [_parse_instance, hid]⟩
    | ok i =>
      cases hst : parseNumField inst.startText pyParseFloat with
      | error u =>
        refine ⟨u, ?_⟩
        simp only [_parse_instance]
        rw [hid, hst]
      | ok s2 =>
        refine ⟨(), ?_⟩
        simp only [_parse_instance]
        rw [hid, hst]
        simp [parseNumField, h1, h2]

lemma parseAll_ok_of_all (insts : List InstanceElem)
    (h : ∀ inst ∈ insts, isOkE (_parse_instance inst) = true) :
    ∃ es, parseAll insts = .ok es := by
  induction insts with
  | nil => exact ⟨[], rfl⟩
  | cons i rest ih =>
    have hi := h i (List.mem_cons_self _ _)
    cases hp : _parse_instance i with
    | error u => rw [hp] at hi; simp [isOkE] at hi
    | ok e =>
      obtain ⟨es, hes⟩ := ih (fun x hx => h x (List.mem_cons_of_mem _ hx))
      exact ⟨e :: es, by simp [parseAll, hp, hes]⟩

lemma filter_idem (p : Event → Bool) (l : List Event) :
    (l.filter p).filter p = l.filter p := by
  induction l with
  | nil => rfl
  | cons e rest ih => cases hp : p e <;> simp [List.filter_cons, hp, ih]

/-- C1 counterexample: on an empty event sequence the summary returns the
empty dict `{}` (the `if not self.events: return {}` early exit), which is
not the fully-zeroed structure the claim names. -/
theorem claim_C1_counterexample :
    get_summary_stats [] = SummaryResult.emptyDict ∧
    get_summary_stats [] ≠
      SummaryResult.stats ⟨0, [], [], [], none, PFloat.zero⟩ := by
  exact ⟨rfl, by decide⟩

/-- C1 (amended): `summary([])` returns the empty dict `{}` — a distinct
"no data" value — rather than the zeroed summary structure. -/
theorem claim_C1 : get_summary_stats [] = SummaryResult.emptyDict := rfl

/-- C2 counterexample: the code `"1 - a.b(c)"` contains all three
structural markers, yet decomposition raises `IndexError` (the segment
before the first `" - "` contains no `"."`, so `split('.', 1)[1]` is out
of range) instead of returning a trimmed name. -/
theorem claim_C2_counterexample :
    strContains "1 - a.b(c)".toList dashSep = true ∧
    strContains "1 - a.b(c)".toList dotSep = true ∧
    strContains "1 - a.b(c)".toList parenSep = true ∧
    decompose_player_code "1 - a.b(c)".toList = DecomposeResult.indexError := by
  decide

/-- C2 (amended): a code lacking one of the three markers yields no name;
a code containing all three markers yields the trimmed
before-`(`-segment of the after-`.`-segment of the before-`" - "`-segment
— provided the segment before the first `" - "` itself contains a `"."`;
otherwise the decomposition raises `IndexError`. -/
theorem claim_C2 (code : Str) :
    ((strContains code dashSep && strContains code dotSep &&
        strContains code parenSep) = false →
      decompose_player_code code = DecomposeResult.noName) ∧
    (∀ afterDot,
      (strContains code dashSep && strContains code dotSep &&
        strContains code parenSep) = true →
      (splitFirst (splitFirst code dashSep).1 dotSep).2 = some afterDot →
      decompose_player_code code =
        DecomposeResult.name (pyStrip (splitFirst afterDot parenSep).1)) ∧
    ((strContains code dashSep && strContains code dotSep &&
        strContains code parenSep) = true →
      (splitFirst (splitFirst code dashSep).1 dotSep).2 = none →
      decompose_player_code code = DecomposeResult.indexError) := by
  refine ⟨fun h => ?_, fun afterDot h hsp => ?_, fun h hsp => ?_⟩
  · simp [decompose_player_code, h]
  · simp [decompose_player_code, h, hsp]
  · simp [decompose_player_code, h, hsp]

/-- C2 witness: the spec's own example
`"12.John Smith(5) - Passes accurate"` decomposes to `"John Smith"`. -/
theorem claim_C2_witness :
    decompose_player_code "12.John Smith(5) - Passes accurate".toList
      = DecomposeResult.name "John Smith".toList := by
  have h := (claim_C2 "12.John Smith(5) - Passes accurate".toList).2.1
    "John Smith(5)".toList (by decide) (by decide)
  rw [h]
  decide

/-- C3 counterexample: on an event whose `Team` label is present with the
`None` value, the team filter raises `TypeError` (`"Bnei Yehuda" in None`)
instead of returning any event list at all. -/
theorem claim_C3_counterexample :
    get_events_by_team [eNoneTeam] "Bnei Yehuda".toList = Except.error () ∧
    get_events_by_team [eNoneTeam] "Bnei Yehuda".toList ≠ Except.ok [] ∧
    get_events_by_team [eNoneTeam] "Bnei Yehuda".toList ≠
      Except.ok [eNoneTeam] := by
  decide

/-- C3 (amended): for event sequences in which every present `Team` label
value is a string (not `None`), team filtering is substring containment:
an event is returned exactly when the query occurs as a substring of its
`Team` label (an absent label defaulting to the empty string); on a
`None`-valued `Team` label the call raises `TypeError` instead. -/
theorem claim_C3 (E : List Event) (q : Str)
    (h : ∀ e ∈ E, (pyGetTeam e).isSome = true) :
    ∃ res, get_events_by_team E q = .ok res ∧
      ∀ e, e ∈ res ↔ e ∈ E ∧ strContains ((pyGetTeam e).getD []) q = true := by
  refine ⟨_, teamFilter_ok E q h, ?_⟩
  intro e
  simp [List.mem_filter]

/-- C3 witness: an event labelled `Team = "Bnei Yehuda Tel-Aviv U19"` is
included when filtering with the value `"Bnei Yehuda"`. -/
theorem claim_C3_witness :
    ∃ res, get_events_by_team [eBnei] "Bnei Yehuda".toList = .ok res ∧
      ∀ e, e ∈ res ↔ e ∈ [eBnei] ∧
        strContains ((pyGetTeam e).getD []) "Bnei Yehuda".toList = true :=
  claim_C3 [eBnei] "Bnei Yehuda".toList (by decide)

/-- C4 counterexample: on a document without an `ALL_INSTANCES` container,
`extract_events` takes the bare `return` — Python `None` — which is not an
empty event sequence. -/
theorem claim_C4_counterexample :
    extract_events ⟨none⟩ = ExtractResult.noReturn ∧
    extract_events ⟨none⟩ ≠ ExtractResult.events [] := by
  decide

/-- C4 (amended): when the parsed document has no `ALL_INSTANCES`
container, `extract_events` returns `None` (a bare `return` after a
printed warning), not an empty sequence and not an error. -/
theorem claim_C4 (doc : XmlDoc) (h : doc.all_instances = none) :
    extract_events doc = ExtractResult.noReturn := by
  unfold extract_events
  rw [h]

/-- C4 witness: the amended claim at the concrete container-less
document. -/
theorem claim_C4_witness : extract_events ⟨none⟩ = ExtractResult.noReturn :=
  claim_C4 ⟨none⟩ rfl

/-- C5: if any instance's `ID`, `start` or `end` child contains
non-numeric text, the whole extraction fails with the numeric-parse
exception — the field is never silently skipped or coerced to a
placeholder. -/
theorem claim_C5 (doc : XmlDoc) (insts : List InstanceElem)
    (inst : InstanceElem) (hc : doc.all_instances = some insts)
    (hm : inst ∈ insts) (hb : badNumeric inst) :
    extract_events doc = ExtractResult.parseError := by
  obtain ⟨u2, h2⟩ :=
    parseAll_error_of_mem insts inst hm (parse_instance_error_of_bad inst hb)
  unfold extract_events
  rw [hc]
  simp [h2]

/-- C5 witness: an `ID` child containing `"abc"` makes extraction fail. -/
theorem claim_C5_witness : extract_events docAbc = ExtractResult.parseError :=
  claim_C5 docAbc [instAbc] instAbc rfl (List.mem_cons_self _ _)
    (Or.inl ⟨"abc".toList, rfl, by decide⟩)

/-- C6 counterexample: an event with a `start_time` but no `end_time`
makes the summary raise `KeyError` (the claim says the computation does
not fail there); and an event carrying only an `end_time` of `5` leaves
`time_range.end` at `0` (the claim says the max ranges over events with
an `end_time`). -/
theorem claim_C6_counterexample :
    get_summary_stats [eStartNoEnd] = SummaryResult.keyError ∧
    get_summary_stats [eEndNoStart] =
      SummaryResult.stats ⟨1, [], [], [], none, PFloat.zero⟩ := by
  decide

/-- C6 (amended): for every non-empty event sequence in which each event
carrying a `start_time` also carries an `end_time`, the summary's
`time_range.start` is the minimum `start_time` over the events that carry
one (staying at `float('inf')` — `none` — when none does) and
`time_range.end` is the maximum `end_time` over the events that carry a
`start_time`, from the initial bound `0`; an event with a `start_time`
but no `end_time` instead makes the computation raise `KeyError`. -/
theorem claim_C6 (E : List Event) (hne : E ≠ [])
    (h : ∀ e ∈ E, e.start_time.isSome = true → e.end_time.isSome = true) :
    ∃ st, get_summary_stats E = SummaryResult.stats st ∧
      st.time_start = specMinStart E ∧ st.time_end = specMaxEnd E := by
  obtain ⟨st, h1, h2, h3⟩ :=
    summaryLoop_ok E ⟨E.length, [], [], [], none, PFloat.zero⟩ h
  have hE : E.isEmpty = false := by
    cases E with
    | nil => exact absurd rfl hne
    | cons e rest => rfl
  refine ⟨st, by simp [get_summary_stats, hE, h1], ?_, ?_⟩
  · exact h2.trans (foldl_optMin_none E)
  · exact h3

/-- C6 witness: the amended claim at a concrete two-event sequence (one
event with both times, one with only an `end_time`). -/
theorem claim_C6_witness :
    ∃ st, get_summary_stats [eW1, eW2] = SummaryResult.stats st ∧
      st.time_start = specMinStart [eW1, eW2] ∧
      st.time_end = specMaxEnd [eW1, eW2] :=
  claim_C6 [eW1, eW2] (by decide) (by decide)

/-- C7: on a well-formed document (the container is present and every
instance parses), extraction returns exactly one event per instance
element, in source order: the output has the container's length and its
`i`-th event is the parse of the `i`-th instance (instances without label
children included — their event simply carries an empty labels dict). -/
theorem claim_C7 (doc : XmlDoc) (insts : List InstanceElem)
    (hc : doc.all_instances = some insts)
    (h : ∀ inst ∈ insts, isOkE (_parse_instance inst) = true) :
    ∃ es, extract_events doc = ExtractResult.events es ∧
      es.length = insts.length ∧
      ∀ i (h1 : i < insts.length) (h2 : i < es.length),
        _parse_instance (insts.get ⟨i, h1⟩) = .ok (es.get ⟨i, h2⟩) := by
  obtain ⟨es, hes⟩ := parseAll_ok_of_all insts h
  obtain ⟨hl, hi⟩ := parseAll_ok_corresponds insts es hes
  refine ⟨es, ?_, hl, hi⟩
  unfold extract_events
  rw [hc]
  simp [hes]

/-- C7 witness: the claim at a concrete two-instance document whose second
instance has no children at all. -/
theorem claim_C7_witness :
    ∃ es, extract_events docW = ExtractResult.events es ∧
      es.length = [instW1, instW2].length ∧
      ∀ i (h1 : i < [instW1, instW2].length) (h2 : i < es.length),
        _parse_instance ([instW1, instW2].get ⟨i, h1⟩) = .ok (es.get ⟨i, h2⟩) :=
  claim_C7 docW [instW1, instW2] rfl (by decide)

/-- C8 counterexample: three query-layer operations can throw on
extractor-produced data — the summary raises `KeyError` on an extracted
event with a `start_time` but no `end_time`; the team filter raises
`TypeError` on an extracted event whose `Team` label value is `None`; and
the player-code decomposition raises `IndexError` on a code containing
all three markers whose pre-`" - "` segment has no `"."`. -/
theorem claim_C8_counterexample :
    (extract_events docStartNoEnd = ExtractResult.events [eStartNoEnd] ∧
      get_summary_stats [eStartNoEnd] = SummaryResult.keyError) ∧
    (extract_events docNoneTeam = ExtractResult.events [eNoneTeam] ∧
      get_events_by_team [eNoneTeam] "x".toList = Except.error ()) ∧
    decompose_player_code "9 - x.y(z)".toList = DecomposeResult.indexError := by
  decide

/-- C8 (amended): the query layer degrades gracefully on empty input
(empty lists, the empty summary dict), and is total on event sequences in
which every event carrying a `start_time` also carries an `end_time` and
every present `Team` label value is a string; outside those conditions the
summary raises `KeyError` and the team filter raises `TypeError` (and the
player-code decomposition can raise `IndexError`, per C2). -/
theorem claim_C8 (E : List Event) (q a hf : Str)
    (h1 : ∀ e ∈ E, e.start_time.isSome = true → e.end_time.isSome = true)
    (h2 : ∀ e ∈ E, (pyGetTeam e).isSome = true) :
    (∃ res, get_events_by_team E q = .ok res) ∧
    (get_summary_stats E = SummaryResult.emptyDict ∨
      ∃ st, get_summary_stats E = SummaryResult.stats st) ∧
    get_events_by_action [] a = [] ∧
    get_events_by_half [] hf = [] ∧
    get_events_by_team [] q = .ok [] ∧
    get_summary_stats [] = SummaryResult.emptyDict := by
  refine ⟨⟨_, teamFilter_ok E q h2⟩, ?_, rfl, rfl, rfl, rfl⟩
  cases E with
  | nil => exact Or.inl rfl
  | cons e rest =>
    obtain ⟨st, hs, _, _⟩ :=
      summaryLoop_ok (e :: rest)
        ⟨rest.length + 1, [], [], [], none, PFloat.zero⟩ h1
    exact Or.inr ⟨st, by simp [get_summary_stats, hs]⟩

/-- C8 witness: the amended claim at a concrete sequence (a team-labelled
event and a fully-timed event), with concrete query values. -/
theorem claim_C8_witness :
    (∃ res, get_events_by_team [eBnei, eW1] "B".toList = .ok res) ∧
    (get_summary_stats [eBnei, eW1] = SummaryResult.emptyDict ∨
      ∃ st, get_summary_stats [eBnei, eW1] = SummaryResult.stats st) ∧
    get_events_by_action [] "a".toList = [] ∧
    get_events_by_half [] "1".toList = [] ∧
    get_events_by_team [] "B".toList = .ok [] ∧
    get_summary_stats [] = SummaryResult.emptyDict :=
  claim_C8 [eBnei, eW1] "B".toList "a".toList "1".toList (by decide) (by decide)

/-- C9: filtering by the `Half` group with value `"1"` is idempotent: a
second identical filter returns the first filter's output unchanged. -/
theorem claim_C9 (E : List Event) :
    get_events_by_half (get_events_by_half E "1".toList) "1".toList
      = get_events_by_half E "1".toList := by
  unfold get_events_by_half
  exact filter_idem _ E

/-- C10 counterexample: filtering by `Team` with the empty string does not
return every event of every sequence — on an event whose `Team` label
value is `None` the call raises `TypeError` instead. -/
theorem claim_C10_counterexample :
    get_events_by_team [eNoneTeam7] ([] : Str) = Except.error () ∧
    get_events_by_team [eNoneTeam7] ([] : Str) ≠ Except.ok [eNoneTeam7] := by
  decide

/-- C10 (amended): for every event sequence whose present `Team` label
values are strings, filtering by `Team` with the empty string returns
every event — including events with no `Team` label at all, because the
substring test is applied against the empty-string default; on a
`None`-valued `Team` label the call raises `TypeError` instead. -/
theorem claim_C10 (E : List Event)
    (h : ∀ e ∈ E, (pyGetTeam e).isSome = true) :
    get_events_by_team E ([] : Str) = .ok E := by
  rw [teamFilter_ok E [] h]
  congr 1
  exact List.filter_eq_self.mpr (fun e _ => strContains_nil _)

/-- C10 witness: the amended claim at a concrete sequence containing an
event with no `Team` label at all. -/
theorem claim_C10_witness :
    get_events_by_team [eNoTeamLbl, eBnei] ([] : Str) =
      Except.ok [eNoTeamLbl, eBnei] :=
  claim_C10 [eNoTeamLbl, eBnei] (by decide)

example : pyParseInt "12".toList = some 12 := by decide
example : pyParseInt "abc".toList = none := by decide
example : pyParseInt " -7 ".toList = some (-7) := by decide
example : pyParseFloat "1.5".toList = some ⟨15, 10⟩ := by decide
example : pyParseFloat "abc".toList = none := by decide
example : pyParseFloat "2e1".toList = some ⟨20, 1⟩ := by decide
example : strContains "abcd".toList "bc".toList = true := by decide
example : strContains "abcd".toList "".toList = true := by decide
example : splitFirst "12.John Smith(5)".toList ".".toList
    = ("12".toList, some "John Smith(5)".toList) := by decide

example : decompose_player_code "12.John Smith(5) - Passes accurate".toList
    = .name "John Smith".toList := by decide
example : decompose_player_code "Passes accurate".toList = .noName := by decide
example : decompose_player_code "1 - a.b(c)".toList = .indexError := by decide
